import Mathlib

/-!
# Bandwidth sampling loop of `mc admin bandwidth`

A shallow embedding of `cmd/admin-bandwidth-info.go`: the per-cycle aggregation
(`fetchInitialBandwidthData`), the two renderings of `bandwidthSingleStruct`,
`printTable` and the refresh loop of `mainAdminBwInfo`.

Conventions of the embedding

* A Go `map[string]V` is a `GoMap V`: the list of its entries in the order in which a
  `range` statement yields them, with pairwise distinct keys.  Go leaves that order
  unspecified; every theorem quantifies over all maps, hence over all orders.
* `int64` values are integers; the result of an addition is wrapped into the 64-bit
  two's-complement range (`wrapInt64`) and `/` is truncated division (`Int.tdiv`).
* `float64` values live in a carrier `F` that supplies `+`, `/` and the literal `2`.
  Nothing else is assumed about `F`, so the general statements hold for IEEE-754
  arithmetic as well as for exact arithmetic; concrete evaluations use `ℚ`.
* A receive channel is the list of the values it delivers before it is closed.
* `fatal` / `fatalIf` end the process; a function that can reach them returns an
  `Outcome`.
-/

namespace Bandwidth

/-! ## Go maps -/

/-- Replace the value stored under `k` when `k` is a key of `l`, otherwise add the entry
`(k, v)`; this is the assignment `m[k] = v` on the entry list. -/
def setEntries {V : Type} (l : List (String × V)) (k : String) (v : V) : List (String × V) :=
  if k ∈ l.map Prod.fst then l.map (fun e => if e.1 = k then (k, v) else e) else l ++ [(k, v)]

/-- A Go `map[string]V`: its entries in iteration order, keys pairwise distinct. -/
structure GoMap (V : Type) where
  entries : List (String × V)
  nodup : (entries.map Prod.fst).Nodup

namespace GoMap

variable {V : Type}

/-- The map made by `make(map[string]V)`, also the behaviour of a nil map under `range`. -/
def empty : GoMap V := ⟨[], List.nodup_nil⟩

/-- The comma-ok lookup `val, ok := m[k]`: `some val` when `ok`, `none` otherwise. -/
def get? (m : GoMap V) (k : String) : Option V := m.entries.lookup k

/-- The assignment `m[k] = v`. -/
def set (m : GoMap V) (k : String) (v : V) : GoMap V :=
  ⟨setEntries m.entries k v, by
    have hkeys : (setEntries m.entries k v).map Prod.fst
        = if k ∈ m.entries.map Prod.fst then m.entries.map Prod.fst
          else m.entries.map Prod.fst ++ [k] := by
      unfold setEntries
      split
      · rw [List.map_map]
        apply List.map_congr_left
        intro e _
        by_cases h : e.1 = k <;> simp [h]
      · simp
    rw [hkeys]
    split
    · exact m.nodup
    · rename_i hk
      rw [List.nodup_append]
      refine ⟨m.nodup, List.nodup_singleton k, ?_⟩
      intro a ha hb
      rw [List.mem_singleton] at hb
      exact hk (hb ▸ ha)⟩

/-- The key set of the map, as the list of keys in iteration order. -/
def keys (m : GoMap V) : List String := m.entries.map Prod.fst

/-- The value of `len(m)`. -/
def len (m : GoMap V) : Nat := m.entries.length

end GoMap

/-! ## Data model -/

/-- The struct `bandwidth.Details`: the configured limit (`int64`) and the measured
throughput (`float64`) of one bucket. -/
structure Details (F : Type) where
  LimitInBytesPerSecond : Int
  CurrentBandwidthInBytesPerSecond : F
deriving DecidableEq, Repr

/-- The struct `bandwidth.Report`: the per-bucket statistics of one snapshot. -/
structure Report (F : Type) where
  BucketStats : GoMap (Details F)

/-- The value received from the bandwidth channel: a report and the error slot that the
admin client fills in when the stream breaks. -/
structure Sample (F : Type) where
  Report : Report F
  Err : Option String

/-- The admin client, reduced to the one method used here: for a bucket filter, the
samples its channel delivers before the channel is closed. -/
structure AdminClient (F : Type) where
  GetBucketBandwidth : List String → List (Sample F)

/-- Result of a function that may end the process through `fatal` or `fatalIf`:
either it returns, or the process stops with the error text and the message passed
to `fatal`. -/
inductive Outcome (α : Type) where
  | returned (a : α)
  | fatal (err : String) (msg : String)

/-! ## Machine arithmetic -/

/-- Reduction of an integer into the `int64` range, the result of a wrapping Go
addition. -/
def wrapInt64 (x : Int) : Int := (x + 2 ^ 63) % 2 ^ 64 - 2 ^ 63

/-! ## fetchInitialBandwidthData -/

section Fetch

variable {F : Type} [Add F] [Div F] [OfNat F 2]

/-- The two assignments of source lines 124-125: the average of a stored value `val` and
a sample `details`, the limit in `int64` arithmetic and the throughput in `float64`
arithmetic. -/
def pairAverage (val details : Details F) : Details F :=
  ⟨Int.tdiv (wrapInt64 (val.LimitInBytesPerSecond + details.LimitInBytesPerSecond)) 2,
   (val.CurrentBandwidthInBytesPerSecond + details.CurrentBandwidthInBytesPerSecond) / 2⟩

/-- Body of the loop over `sample.Report.BucketStats` for `i == 0` (source lines 117-119):
`bwSample[bucket] = details`. -/
def seedEntry (bwSample : GoMap (Details F)) (e : String × Details F) : GoMap (Details F) :=
  bwSample.set e.1 e.2

/-- Body of the loop over `sample.Report.BucketStats` for `i > 0` (source lines 122-131):
when the bucket is already in `bwSample`, store the average of the stored value and the
sample; otherwise leave `bwSample` alone. -/
def averageEntry (bwSample : GoMap (Details F)) (e : String × Details F) :
    GoMap (Details F) :=
  match bwSample.get? e.1 with
  | some val =>
      let cur := (val.CurrentBandwidthInBytesPerSecond + e.2.CurrentBandwidthInBytesPerSecond) / 2
      let limit := Int.tdiv (wrapInt64 (val.LimitInBytesPerSecond + e.2.LimitInBytesPerSecond)) 2
      bwSample.set e.1 ⟨limit, cur⟩
  | none => bwSample

/-- What one iteration of the `for i` loop does with a received sample (source lines
116-131): seed at `i == 0`, average otherwise. -/
def foldSample (i : Nat) (sample : Sample F) (bwSample : GoMap (Details F)) :
    GoMap (Details F) :=
  if i = 0 then sample.Report.BucketStats.entries.foldl seedEntry bwSample
  else sample.Report.BucketStats.entries.foldl averageEntry bwSample

/-- The loop `for i := 0; i < 10; i++` of source lines 110-134, started at counter `i`
with the channel content `bwCh` and the map `bwSample`.  A closed channel (`[]`) returns
the map at once; after ten iterations the map is returned. -/
def receiveLoop (i : Nat) (bwCh : List (Sample F)) (bwSample : GoMap (Details F)) :
    GoMap (Details F) :=
  match bwCh with
  | [] => bwSample
  | sample :: rest =>
      if i < 10 then receiveLoop (i + 1) rest (foldSample i sample bwSample) else bwSample

/-- The function `fetchInitialBandwidthData(server, buckets)`.  `newAdminClient` is the
constructor of the admin client, which either fails with an error text or yields a
client.  When it fails, the source still calls `GetBucketBandwidth` on the nil client
before `fatalIf` sees the error; the process ends there in either case and no map is
returned. -/
def fetchInitialBandwidthData (newAdminClient : String → Except String (AdminClient F))
    (server : String) (buckets : List String) : Outcome (GoMap (Details F)) :=
  match newAdminClient server with
  | .error err => .fatal err ("Unable to initialize admin connection with " ++ server)
  | .ok client => .returned (receiveLoop 0 (client.GetBucketBandwidth buckets) GoMap.empty)

end Fetch

/-! ## The fold of the specification -/

section SpecFold

variable {F : Type} [Add F] [Div F] [OfNat F 2]

/-- The fold step in the words of the specification (section 4.1), on maps seen as lookup
functions.  At index 0 every bucket of the snapshot is inserted as it is; at a later
index a bucket that is in the snapshot and already in the result is replaced by the
pairwise average, and a bucket missing from the running result is skipped. -/
def specFold (result : String → Option (Details F)) (index : Nat)
    (snapshot : String → Option (Details F)) : String → Option (Details F) :=
  fun B =>
    if index = 0 then
      match snapshot B with
      | some d => some d
      | none => result B
    else
      match result B, snapshot B with
      | some stored, some sample => some (pairAverage stored sample)
      | stored, _ => stored

/-- Feeding snapshots to `specFold` in arrival order, each with its index. -/
def specFoldFrom (index : Nat) (snapshots : List (String → Option (Details F)))
    (result : String → Option (Details F)) : String → Option (Details F) :=
  match snapshots with
  | [] => result
  | snapshot :: rest => specFoldFrom (index + 1) rest (specFold result index snapshot)

/-- The cycle in the words of the specification (sections 4.2 and 8): starting from the
empty result, exactly `min(10, n)` folds, over the first `min(10, n)` of the `n` available
snapshots. -/
def specRunCycle (snapshots : List (String → Option (Details F))) :
    String → Option (Details F) :=
  specFoldFrom 0 (snapshots.take (min 10 snapshots.length)) (fun _ => none)

end SpecFold

/-! ## Renderers -/

/-- Formatting and colouring primitives of the packages `fmt` and `console`, taken as
given: `console.Colorize(theme, text)`, the constant `dot`, `fmt.Sprintf("%.4f", x)` and
`fmt.Sprintf(format)` without operands. -/
structure Console (F : Type) where
  Colorize : String → String → String
  dot : String
  Sprintf4f : F → String
  SprintfFormatOnly : String → String

/-- The struct `bandwidthSingleStruct` (source lines 67-72). -/
structure bandwidthSingleStruct (F : Type) where
  Status : String
  Error : String
  Server : String
  Result : Report F

/-- A JSON document; `JSON()` returns the text of one, which is represented by the
document it spells. -/
inductive JSONValue (F : Type) where
  | str (s : String)
  | int (n : Int)
  | float (x : F)
  | object (members : List (String × JSONValue F))

section Render

variable {F : Type}

/-- The method `String()` of `bandwidthSingleStruct` (source lines 74-92). -/
def bandwidthSingleStruct_String (con : Console F) (b : bandwidthSingleStruct F) :
    Outcome String :=
  if b.Status = "error" then .fatal b.Error "Unable to get service status"
  else
    let msg := con.Colorize "Info" con.dot ++ "  " ++ con.Colorize "PrintB" b.Server ++ "\n"
    .returned (b.Result.BucketStats.entries.foldl (fun msg e =>
      let avgAg := con.Sprintf4f e.2.CurrentBandwidthInBytesPerSecond
      let avgMv := toString e.2.LimitInBytesPerSecond
      msg ++ ("   Bucket: " ++ con.Colorize "Info" e.1 ++ "\n")
          ++ ("      Current Bandwidth  : " ++ con.Colorize "Info" avgAg ++ "\n")
          ++ ("      Limit Bandwidth     : " ++ con.Colorize "Info" avgMv ++ "\n")) msg)

/-- Modelled from the spec: `json.MarshalIndent` of the package `pkg/colorjson`, which is
not among the source files.  The record has the members `status`, `error` (present only
when it is not empty), `server` (likewise) and `result`, the mapping from bucket to
`limitInBytesPerSecond` and `currentBandwidthInBytesPerSecond`; the member names of the
outer record are the struct tags of source lines 68-71.  Encoding fails exactly when a
throughput is a value JSON cannot express, which `unsupported` decides. -/
def MarshalIndent (unsupported : F → Bool) (b : bandwidthSingleStruct F) :
    Except String (JSONValue F) :=
  if b.Result.BucketStats.entries.any (fun e => unsupported e.2.CurrentBandwidthInBytesPerSecond)
  then .error "json: unsupported value"
  else .ok (.object (
    [("status", .str b.Status)]
    ++ (if b.Error = "" then [] else [("error", .str b.Error)])
    ++ (if b.Server = "" then [] else [("server", .str b.Server)])
    ++ [("result", .object (b.Result.BucketStats.entries.map fun e =>
          (e.1, .object [("limitInBytesPerSecond", .int e.2.LimitInBytesPerSecond),
                         ("currentBandwidthInBytesPerSecond",
                            .float e.2.CurrentBandwidthInBytesPerSecond)])))]))

/-- The method `JSON()` of `bandwidthSingleStruct` (source lines 94-99): marshal the
record, `fatalIf` on a marshalling error, return the text. -/
def bandwidthSingleStruct_JSON (unsupported : F → Bool) (b : bandwidthSingleStruct F) :
    Outcome (JSONValue F) :=
  match MarshalIndent unsupported b with
  | .error e => .fatal e "Unable to marshal into JSON."
  | .ok statusJSONBytes => .returned statusJSONBytes

/-- The function `printTable` (source lines 137-158): the list of the `cellText` values
handed to `DisplayTable`, one per iteration of the loop over the map. -/
def printTable (con : Console F) (bwDistributedSample : GoMap (Details F)) :
    List (List (List String)) :=
  bwDistributedSample.entries.map fun e =>
    [["Bucket", "Avg Current Bandwidth", "Avg Limit Bandwidth"],
     [con.SprintfFormatOnly (con.Colorize "InfoHeader" e.1),
      con.Sprintf4f e.2.CurrentBandwidthInBytesPerSecond,
      toString e.2.LimitInBytesPerSecond]]

end Render

/-! ## mainAdminBwInfo -/

/-- What the command line parser hands to the action: the positional arguments and the
values collected for the two string-slice flags of `adminBwFlags`. -/
structure Context where
  Args : List String
  bucket : List String
  servers : List String

/-- The observable actions of `mainAdminBwInfo`, in program order. -/
inductive Event (F : Type) where
  | showCommandHelpAndExit (command : String)
  | printC (text : String)
  | getBucketBandwidth (server : String) (buckets : List String)
  | displayTable (cellText : List (List String))
  | rewindLines (n : Nat)
  | fatal (err : String) (msg : String)

section Main

variable {F : Type} [Add F] [Div F] [OfNat F 2]

/-- The `for` loop of source lines 177-181, unrolled for at most `cycles` iterations
starting with iteration number `cycle`.  `world c` is the admin-client constructor as it
behaves during iteration `c`.  Each iteration fetches, prints the tables and rewinds;
a fatal fetch ends the process. -/
def refreshLoop (con : Console F) (world : Nat → String → Except String (AdminClient F))
    (urlStr : String) (buckets : List String) (rewindLines : Nat) (cycle : Nat) (cycles : Nat) :
    List (Event F) :=
  match cycles with
  | 0 => []
  | n + 1 =>
    .getBucketBandwidth urlStr buckets ::
      match fetchInitialBandwidthData (world cycle) urlStr buckets with
      | .fatal err msg => [.fatal err msg]
      | .returned bwSample =>
        (printTable con bwSample).map .displayTable
          ++ .rewindLines rewindLines
            :: refreshLoop con world urlStr buckets rewindLines (cycle + 1) n

/-- The function `mainAdminBwInfo` (source lines 166-182), observed for its first
`cycles` loop iterations.  `checkAdminBwInfoSyntax` exits when more than one argument is
given.  The local `buckets` is declared and never assigned, and `rewindLines` is computed
from it before the loop. -/
def mainAdminBwInfo (con : Console F) (world : Nat → String → Except String (AdminClient F))
    (ctx : Context) (cycles : Nat) : List (Event F) :=
  if ctx.Args.length > 1 then [.showCommandHelpAndExit "bandwidth"]
  else
    let buckets : List String := []
    let args := ctx.Args
    let banner := con.Colorize "BlinkLoad"
      "COLLECTING SAMPLES & CALCULATING SUM & AVERAGE. These are the initial values..\n"
    let urlStr := args.getD 0 ""
    let rewindLines := 4 * buckets.length
    .printC banner :: refreshLoop con world urlStr buckets rewindLines 0 cycles

end Main

/-! ## Concrete inputs -/

/-- The map with the given entries, assigned one after the other. -/
def GoMap.ofList {V : Type} (l : List (String × V)) : GoMap V :=
  l.foldl (fun m e => m.set e.1 e.2) GoMap.empty

/-- A sample without error that reports the given bucket statistics. -/
def sampleOf (l : List (String × Details ℚ)) : Sample ℚ := ⟨⟨GoMap.ofList l⟩, none⟩

/-- First snapshot of the running example: buckets `a` and `b`. -/
def exampleS0 : Sample ℚ := sampleOf [("a", ⟨100, 5 / 2⟩), ("b", ⟨200, 0⟩)]

/-- Second snapshot of the running example: bucket `a` again and a new bucket `c`. -/
def exampleS1 : Sample ℚ := sampleOf [("a", ⟨300, 3 / 2⟩), ("c", ⟨50, 7⟩)]

/-- Third snapshot of the running example: bucket `a` only. -/
def exampleS2 : Sample ℚ := sampleOf [("a", ⟨100, 4⟩)]

/-- A sample as the admin client sends it when the stream breaks: an empty report and
the error. -/
def brokenSample : Sample ℚ := ⟨⟨GoMap.empty⟩, some "unexpected EOF"⟩

/-- A record with status `error` that nevertheless carries bucket statistics. -/
def errorRecord : bandwidthSingleStruct ℚ :=
  ⟨"error", "connection refused", "play/", exampleS0.Report⟩

/-- An admin-client constructor that always succeeds and whose client streams the given
samples, then closes the channel. -/
def streaming {F : Type} (stream : List (Sample F)) : String → Except String (AdminClient F) :=
  fun _ => .ok ⟨fun _ => stream⟩

/-! ## Fixed-point formatting of exact values -/

/-- The quotient `n / d` rounded to the nearest natural number, ties to the even one. -/
def roundHalfEven (n d : Nat) : Nat :=
  let q := n / d
  let r := n % d
  if 2 * r < d then q else if d < 2 * r then q + 1 else if q % 2 = 0 then q else q + 1

/-- The result of `fmt.Sprintf("%.4f", x)` for an exactly known value `x`: the sign when
`x` is negative, the integer part in decimal, a point and exactly four decimals, `x`
being rounded to the nearest multiple of one ten-thousandth (ties to even). -/
def formatFixed4 (x : ℚ) : String :=
  let scaled := roundHalfEven (x.num.natAbs * 10000) x.den
  let frac := scaled % 10000
  (if x < 0 then "-" else "") ++ toString (scaled / 10000) ++ "."
    ++ String.mk [Nat.digitChar (frac / 1000), Nat.digitChar (frac / 100 % 10),
                  Nat.digitChar (frac / 10 % 10), Nat.digitChar (frac % 10)]

/-- The console of a run without colours: `Colorize` returns its text, `%.4f` is
`formatFixed4`, and a format without operands is printed as it stands, which is what
`fmt.Sprintf` does with a format free of `%`. -/
def plainConsole : Console ℚ := ⟨fun _ text => text, "●", formatFixed4, fun format => format⟩

/-- The aggregate `a ↦ (100, 12.3456)`, `b ↦ (200, 0.0)`. -/
def exampleAggregate : GoMap (Details ℚ) :=
  GoMap.ofList [("a", ⟨100, 12.3456⟩), ("b", ⟨200, 0⟩)]

/-! ## The sample source under cancellation -/

/-- Modelled from the spec: the reaction of the sample source to a cancelled context; the
admin client is outside the source files, and the spec has the source produce snapshots
"until exhausted or cancelled".  `source c` is what the channel of loop iteration `c`
would deliver if left alone.  The context is cancelled while iteration `cancelCycle` has
received `received` samples: that channel is closed there, and the channels of all later
iterations are closed at once. -/
def worldCancelledAt {F : Type} (source : Nat → List (Sample F)) (cancelCycle received : Nat) :
    Nat → String → Except String (AdminClient F) :=
  fun cycle _ => .ok ⟨fun _ =>
    if cycle < cancelCycle then source cycle
    else if cycle = cancelCycle then (source cycle).take received
    else []⟩

/-! ## The running value of one bucket -/

/-- The throughput stored for a bucket after the samples `0, ..., j` of a cycle have been
folded, when the bucket occurs in each of them, with throughput `c k` in sample `k`: the
seed of sample 0, then the assignment of source line 124 once per later sample. -/
def runningCurrent {K : Type} [Add K] [Div K] [OfNat K 2] (c : Nat → K) : Nat → K
  | 0 => c 0
  | j + 1 => (runningCurrent c j + c (j + 1)) / 2

/-! ## Go maps: lookup after assignment -/

theorem lookup_eq_none_iff_not_mem_keys {V : Type} (l : List (String × V)) (k : String) :
    l.lookup k = none ↔ k ∉ l.map Prod.fst := by
  induction l with
  | nil => simp
  | cons e t ih =>
    obtain ⟨k1, v1⟩ := e
    by_cases h : k = k1
    · subst h; simp [List.lookup_cons]
    · have hb : (k == k1) = false := by simpa using h
      simp [List.lookup_cons, hb, ih, h]

theorem keys_setEntries {V : Type} (l : List (String × V)) (k : String) (v : V) :
    (setEntries l k v).map Prod.fst
      = if k ∈ l.map Prod.fst then l.map Prod.fst else l.map Prod.fst ++ [k] := by
  unfold setEntries
  split
  · rw [List.map_map]
    apply List.map_congr_left
    intro e _
    by_cases h : e.1 = k <;> simp [h]
  · simp

theorem setEntries_of_not_mem {V : Type} (l : List (String × V)) (k : String) (v : V)
    (h : k ∉ l.map Prod.fst) : setEntries l k v = l ++ [(k, v)] := by
  unfold setEntries
  rw [if_neg h]

theorem lookup_setEntries_self {V : Type} (l : List (String × V)) (k : String) (v : V) :
    (setEntries l k v).lookup k = some v := by
  unfold setEntries
  split
  · rename_i hk
    induction l with
    | nil => simp at hk
    | cons e t ih =>
      obtain ⟨k1, v1⟩ := e
      by_cases h : k1 = k
      · subst h; simp [List.lookup_cons]
      · have hb : (k == k1) = false := by simpa using fun h2 => h h2.symm
        have hk2 : k ∈ t.map Prod.fst := by
          simp only [List.map_cons, List.mem_cons] at hk
          rcases hk with hk | hk
          · exact absurd hk.symm h
          · exact hk
        simp only [List.map_cons, if_neg h, List.lookup_cons, hb]
        exact ih hk2
  · rename_i hk
    induction l with
    | nil => simp [List.lookup_cons]
    | cons e t ih =>
      obtain ⟨k1, v1⟩ := e
      simp only [List.map_cons, List.mem_cons, not_or] at hk
      have hb : (k == k1) = false := by simpa using hk.1
      simp only [List.cons_append, List.lookup_cons, hb]
      exact ih hk.2

theorem lookup_setEntries_ne {V : Type} (l : List (String × V)) (k k2 : String) (v : V)
    (hne : k2 ≠ k) : (setEntries l k v).lookup k2 = l.lookup k2 := by
  unfold setEntries
  split
  · rename_i hk
    clear hk
    induction l with
    | nil => simp
    | cons e t ih =>
      obtain ⟨k1, v1⟩ := e
      by_cases h : k1 = k
      · subst h
        have hb : (k2 == k1) = false := by simpa using hne
        simp only [List.map_cons, if_true, List.lookup_cons, hb]
        exact ih
      · simp only [List.map_cons, if_neg h, List.lookup_cons]
        rw [ih]
  · rename_i hk
    clear hk
    induction l with
    | nil =>
      have hb : (k2 == k) = false := by simpa using hne
      simp [List.lookup_cons, hb]
    | cons e t ih =>
      obtain ⟨k1, v1⟩ := e
      simp only [List.cons_append, List.lookup_cons]
      rw [ih]

namespace GoMap

variable {V : Type}

theorem ext_entries {m1 m2 : GoMap V} (h : m1.entries = m2.entries) : m1 = m2 := by
  cases m1; cases m2; cases h; rfl

theorem get?_empty (k : String) : (empty : GoMap V).get? k = none := rfl

theorem get?_set_self (m : GoMap V) (k : String) (v : V) : (m.set k v).get? k = some v :=
  lookup_setEntries_self m.entries k v

theorem get?_set_ne (m : GoMap V) (k k2 : String) (v : V) (hne : k2 ≠ k) :
    (m.set k v).get? k2 = m.get? k2 :=
  lookup_setEntries_ne m.entries k k2 v hne

theorem get?_eq_none_iff (m : GoMap V) (k : String) : m.get? k = none ↔ k ∉ m.keys :=
  lookup_eq_none_iff_not_mem_keys m.entries k

theorem keys_set (m : GoMap V) (k : String) (v : V) :
    (m.set k v).keys = if k ∈ m.keys then m.keys else m.keys ++ [k] :=
  keys_setEntries m.entries k v

end GoMap

/-! ## The two inner loops -/

section FoldLemmas

variable {F : Type}

theorem wrapInt64_of_inRange (x : Int) (hlo : -(2 ^ 63) ≤ x) (hhi : x < 2 ^ 63) :
    wrapInt64 x = x := by
  unfold wrapInt64
  rw [Int.emod_eq_of_lt (by omega) (by omega)]
  omega

/-- Seeding with a snapshot whose keys are new to the map appends its entries. -/
theorem entries_foldl_seedEntry (l : List (String × Details F)) :
    ∀ acc : GoMap (Details F), (acc.entries.map Prod.fst ++ l.map Prod.fst).Nodup →
      (l.foldl seedEntry acc).entries = acc.entries ++ l := by
  induction l with
  | nil => intro acc _; simp
  | cons e t ih =>
    intro acc h
    have hnot : e.1 ∉ acc.entries.map Prod.fst := by
      intro hmem
      rw [List.nodup_append] at h
      exact h.2.2 hmem (by simp)
    have hstep : (seedEntry acc e).entries = acc.entries ++ [e] := by
      show setEntries acc.entries e.1 e.2 = _
      rw [setEntries_of_not_mem _ _ _ hnot]
    rw [List.foldl_cons, ih (seedEntry acc e), hstep]
    · simp
    · rw [hstep]
      simpa using h

/-- Lookup after the seeding loop: the snapshot wins, other keys keep their value. -/
theorem get?_foldl_seedEntry (l : List (String × Details F)) (hl : (l.map Prod.fst).Nodup)
    (B : String) :
    ∀ acc : GoMap (Details F),
      (l.foldl seedEntry acc).get? B
        = match l.lookup B with
          | some d => some d
          | none => acc.get? B := by
  induction l with
  | nil => intro acc; rfl
  | cons e t ih =>
    intro acc
    obtain ⟨k, d⟩ := e
    rw [List.map_cons, List.nodup_cons] at hl
    rw [List.foldl_cons, ih hl.2 (seedEntry acc (k, d))]
    by_cases hB : B = k
    · subst hB
      have hnone : t.lookup B = none := (lookup_eq_none_iff_not_mem_keys t B).2 hl.1
      simp [hnone, List.lookup_cons, seedEntry, GoMap.get?_set_self]
    · have hb : (B == k) = false := by simpa using hB
      simp only [List.lookup_cons, hb, seedEntry]
      rw [GoMap.get?_set_ne _ _ _ _ hB]

variable [Add F] [Div F] [OfNat F 2]

theorem averageEntry_eq (bwSample : GoMap (Details F)) (e : String × Details F) :
    averageEntry bwSample e
      = match bwSample.get? e.1 with
        | some val => bwSample.set e.1 (pairAverage val e.2)
        | none => bwSample := rfl

/-- Lookup after the averaging loop: a bucket stored in the map and present in the
snapshot gets the pairwise average, every other bucket keeps what the map held. -/
theorem get?_foldl_averageEntry (l : List (String × Details F))
    (hl : (l.map Prod.fst).Nodup) (B : String) :
    ∀ acc : GoMap (Details F),
      (l.foldl averageEntry acc).get? B
        = match acc.get? B, l.lookup B with
          | some val, some d => some (pairAverage val d)
          | r, _ => r := by
  induction l with
  | nil =>
    intro acc
    simp only [List.foldl_nil, List.lookup]
    cases acc.get? B <;> rfl
  | cons e t ih =>
    intro acc
    obtain ⟨k, d⟩ := e
    rw [List.map_cons, List.nodup_cons] at hl
    rw [List.foldl_cons, ih hl.2 (averageEntry acc (k, d)), averageEntry_eq]
    by_cases hB : B = k
    · subst hB
      have hnone : t.lookup B = none := (lookup_eq_none_iff_not_mem_keys t B).2 hl.1
      cases hacc : acc.get? B with
      | none => simp [hnone, hacc, List.lookup_cons]
      | some val => simp [hnone, hacc, List.lookup_cons, GoMap.get?_set_self]
    · have hb : (B == k) = false := by simpa using hB
      have hsame : (match acc.get? (k, d).1 with
          | some val => acc.set (k, d).1 (pairAverage val (k, d).2)
          | none => acc).get? B = acc.get? B := by
        cases acc.get? k with
        | none => rfl
        | some val => exact GoMap.get?_set_ne _ _ _ _ hB
      rw [hsame]
      simp only [List.lookup_cons, hb]

/-- The averaging loop never changes the key list of the map. -/
theorem keys_foldl_averageEntry (l : List (String × Details F)) :
    ∀ acc : GoMap (Details F), (l.foldl averageEntry acc).keys = acc.keys := by
  induction l with
  | nil => intro acc; rfl
  | cons e t ih =>
    intro acc
    rw [List.foldl_cons, ih, averageEntry_eq]
    cases hacc : acc.get? e.1 with
    | none => rfl
    | some val =>
      have hmem : e.1 ∈ acc.keys := by
        by_contra hcon
        rw [(GoMap.get?_eq_none_iff acc e.1).2 hcon] at hacc
        cases hacc
      simp [GoMap.keys_set, hmem]

theorem receiveLoop_nil (i : Nat) (bwSample : GoMap (Details F)) :
    receiveLoop i [] bwSample = bwSample := rfl

theorem receiveLoop_cons (i : Nat) (sample : Sample F) (rest : List (Sample F))
    (bwSample : GoMap (Details F)) :
    receiveLoop i (sample :: rest) bwSample
      = if i < 10 then receiveLoop (i + 1) rest (foldSample i sample bwSample)
        else bwSample := rfl

end FoldLemmas

/-! ## Claims about one cycle -/

section Cycle

variable {F : Type} [Add F] [Div F] [OfNat F 2]

theorem foldSample_zero_empty (sample : Sample F) :
    foldSample 0 sample GoMap.empty = sample.Report.BucketStats := by
  apply GoMap.ext_entries
  show (sample.Report.BucketStats.entries.foldl seedEntry GoMap.empty).entries = _
  rw [entries_foldl_seedEntry]
  · rfl
  · simpa [GoMap.empty] using sample.Report.BucketStats.nodup

theorem get?_foldSample_pos (i : Nat) (hi : 0 < i) (sample : Sample F)
    (bwSample : GoMap (Details F)) (B : String) :
    (foldSample i sample bwSample).get? B
      = match bwSample.get? B, sample.Report.BucketStats.get? B with
        | some val, some d => some (pairAverage val d)
        | r, _ => r := by
  unfold foldSample
  rw [if_neg (by omega)]
  exact get?_foldl_averageEntry _ sample.Report.BucketStats.nodup B bwSample

theorem keys_foldSample_pos (i : Nat) (hi : 0 < i) (sample : Sample F)
    (bwSample : GoMap (Details F)) : (foldSample i sample bwSample).keys = bwSample.keys := by
  unfold foldSample
  rw [if_neg (by omega)]
  exact keys_foldl_averageEntry _ bwSample

theorem fetch_of_stream (newAdminClient : String → Except String (AdminClient F))
    (server : String) (buckets : List String) (client : AdminClient F)
    (hclient : newAdminClient server = .ok client) :
    fetchInitialBandwidthData newAdminClient server buckets
      = .returned (receiveLoop 0 (client.GetBucketBandwidth buckets) GoMap.empty) := by
  unfold fetchInitialBandwidthData
  rw [hclient]

theorem get?_receiveLoop_three (S0 S1 S2 : Sample F) (B : String) (d0 d1 d2 : Details F)
    (h0 : S0.Report.BucketStats.get? B = some d0)
    (h1 : S1.Report.BucketStats.get? B = some d1)
    (h2 : S2.Report.BucketStats.get? B = some d2) :
    (receiveLoop 0 [S0, S1, S2] GoMap.empty).get? B
      = some (pairAverage (pairAverage d0 d1) d2) := by
  rw [receiveLoop_cons, if_pos (by decide), receiveLoop_cons, if_pos (by decide),
    receiveLoop_cons, if_pos (by decide), receiveLoop_nil, foldSample_zero_empty,
    get?_foldSample_pos _ (by decide), get?_foldSample_pos _ (by decide), h0, h1, h2]

/-- From iteration 1 on, a bucket that none of the remaining folded samples mentions
keeps the value the map holds for it. -/
theorem get?_receiveLoop_absent (B : String) :
    ∀ (rest : List (Sample F)) (i : Nat) (acc : GoMap (Details F)), 0 < i →
      (∀ S ∈ rest.take (10 - i), S.Report.BucketStats.get? B = none) →
      (receiveLoop i rest acc).get? B = acc.get? B := by
  intro rest
  induction rest with
  | nil => intro i acc _ _; rfl
  | cons S t ih =>
    intro i acc hi habs
    rw [receiveLoop_cons]
    split
    · rename_i hlt
      have hsplit : 10 - i = (10 - (i + 1)) + 1 := by omega
      rw [hsplit, List.take_succ_cons] at habs
      rw [ih (i + 1) _ (by omega) (fun S2 hS2 => habs S2 (List.mem_cons_of_mem _ hS2)),
        get?_foldSample_pos i hi, habs S (List.mem_cons_self _ _)]
      cases acc.get? B <;> rfl
    · rfl

/-- From iteration 1 on the loop never changes the key list of the map. -/
theorem keys_receiveLoop_pos :
    ∀ (rest : List (Sample F)) (i : Nat) (acc : GoMap (Details F)), 0 < i →
      (receiveLoop i rest acc).keys = acc.keys := by
  intro rest
  induction rest with
  | nil => intro i acc _; rfl
  | cons S t ih =>
    intro i acc hi
    rw [receiveLoop_cons]
    split
    · rw [ih (i + 1) _ (by omega), keys_foldSample_pos i hi]
    · rfl

theorem receiveLoop_zero_cons (S0 : Sample F) (rest : List (Sample F)) :
    receiveLoop 0 (S0 :: rest) GoMap.empty = receiveLoop 1 rest S0.Report.BucketStats := by
  rw [receiveLoop_cons, if_pos (by decide), foldSample_zero_empty]

/-- C1: when the stream delivers exactly one snapshot `S0` and is then closed,
`fetchInitialBandwidthData` returns the bucket map of `S0` itself: the same bucket names
and, for every bucket, the same (limit, current) pair, with no averaging. -/
theorem fetch_single_snapshot_returns_seed
    (newAdminClient : String → Except String (AdminClient F)) (server : String)
    (buckets : List String) (client : AdminClient F) (S0 : Sample F)
    (hclient : newAdminClient server = .ok client)
    (hstream : client.GetBucketBandwidth buckets = [S0]) :
    ∃ m, fetchInitialBandwidthData newAdminClient server buckets = .returned m
      ∧ m = S0.Report.BucketStats
      ∧ m.keys = S0.Report.BucketStats.keys
      ∧ ∀ B, m.get? B = S0.Report.BucketStats.get? B := by
  refine ⟨S0.Report.BucketStats, ?_, rfl, rfl, fun _ => rfl⟩
  rw [fetch_of_stream newAdminClient server buckets client hclient, hstream,
    receiveLoop_cons, if_pos (by decide), receiveLoop_nil, foldSample_zero_empty]

theorem fetch_single_snapshot_returns_seed_witness :
    streaming [exampleS0] "play/" = .ok ⟨fun _ => [exampleS0]⟩
      ∧ (fun _ : List String => [exampleS0]) [] = [exampleS0]
      ∧ ∃ m, fetchInitialBandwidthData (streaming [exampleS0]) "play/" [] = .returned m
          ∧ m = exampleS0.Report.BucketStats
          ∧ m.keys = exampleS0.Report.BucketStats.keys
          ∧ ∀ B, m.get? B = exampleS0.Report.BucketStats.get? B :=
  ⟨rfl, rfl,
    fetch_single_snapshot_returns_seed (streaming [exampleS0]) "play/" []
      ⟨fun _ => [exampleS0]⟩ exampleS0 rfl rfl⟩

/-- C2: for a cycle of exactly two snapshots `S0`, `S1` and a bucket `B` present in both,
the result for `B` has current `(S0[B].current + S1[B].current) / 2` and limit
`(S0[B].limit + S1[B].limit) / 2`, the latter in `int64` arithmetic (truncating quotient
of the wrapped sum, which is the quotient of the plain sum whenever the sum fits in an
`int64`).  More generally a fold step at an index above 0 replaces the stored stat of a
bucket present in both the running result and the snapshot by that pairwise average. -/
theorem fetch_two_snapshots_pairwise_average
    (newAdminClient : String → Except String (AdminClient F)) (server : String)
    (buckets : List String) (client : AdminClient F) (S0 S1 : Sample F) (B : String)
    (d0 d1 : Details F)
    (hclient : newAdminClient server = .ok client)
    (hstream : client.GetBucketBandwidth buckets = [S0, S1])
    (h0 : S0.Report.BucketStats.get? B = some d0)
    (h1 : S1.Report.BucketStats.get? B = some d1) :
    (∃ m, fetchInitialBandwidthData newAdminClient server buckets = .returned m
      ∧ m.get? B = some
          ⟨Int.tdiv (wrapInt64 (d0.LimitInBytesPerSecond + d1.LimitInBytesPerSecond)) 2,
           (d0.CurrentBandwidthInBytesPerSecond + d1.CurrentBandwidthInBytesPerSecond) / 2⟩)
    ∧ (-(2 ^ 63) ≤ d0.LimitInBytesPerSecond + d1.LimitInBytesPerSecond →
        d0.LimitInBytesPerSecond + d1.LimitInBytesPerSecond < 2 ^ 63 →
        Int.tdiv (wrapInt64 (d0.LimitInBytesPerSecond + d1.LimitInBytesPerSecond)) 2
          = Int.tdiv (d0.LimitInBytesPerSecond + d1.LimitInBytesPerSecond) 2)
    ∧ (∀ (i : Nat) (sample : Sample F) (bwSample : GoMap (Details F)) (val details : Details F),
        0 < i → bwSample.get? B = some val →
        sample.Report.BucketStats.get? B = some details →
        (foldSample i sample bwSample).get? B = some
          ⟨Int.tdiv (wrapInt64 (val.LimitInBytesPerSecond + details.LimitInBytesPerSecond)) 2,
           (val.CurrentBandwidthInBytesPerSecond
              + details.CurrentBandwidthInBytesPerSecond) / 2⟩) := by
  refine ⟨⟨_, fetch_of_stream newAdminClient server buckets client hclient, ?_⟩, ?_, ?_⟩
  · rw [hstream, receiveLoop_cons, if_pos (by decide), receiveLoop_cons, if_pos (by decide),
      receiveLoop_nil, foldSample_zero_empty, get?_foldSample_pos _ (by decide), h0, h1]
    rfl
  · intro hlo hhi
    rw [wrapInt64_of_inRange _ hlo hhi]
  · intro i sample bwSample val details hi hval hdet
    rw [get?_foldSample_pos i hi, hval, hdet]
    rfl

theorem fetch_two_snapshots_pairwise_average_witness :
    streaming [exampleS0, exampleS1] "play/" = .ok ⟨fun _ => [exampleS0, exampleS1]⟩
      ∧ (fun _ : List String => [exampleS0, exampleS1]) [] = [exampleS0, exampleS1]
      ∧ exampleS0.Report.BucketStats.get? "a" = some ⟨100, 5 / 2⟩
      ∧ exampleS1.Report.BucketStats.get? "a" = some ⟨300, 3 / 2⟩
      ∧ ∃ m, fetchInitialBandwidthData (streaming [exampleS0, exampleS1]) "play/" []
            = .returned m
          ∧ m.get? "a" = some ⟨200, 2⟩ := by
  obtain ⟨m, hm, hget⟩ :=
    (fetch_two_snapshots_pairwise_average (streaming [exampleS0, exampleS1]) "play/" []
      ⟨fun _ => [exampleS0, exampleS1]⟩ exampleS0 exampleS1 "a" ⟨100, 5 / 2⟩ ⟨300, 3 / 2⟩
      rfl rfl rfl rfl).1
  have hl : Int.tdiv (wrapInt64 (100 + 300)) 2 = 200 := by decide
  have hc : ((5 / 2 : ℚ) + 3 / 2) / 2 = 2 := by norm_num
  refine ⟨rfl, rfl, rfl, rfl, m, hm, ?_⟩
  rw [hget]
  simp only [hl, hc]

/-- C3: for a cycle of exactly three snapshots `S0`, `S1`, `S2` and a bucket `B` present in
all three, the result for `B` has current `((c0 + c1) / 2 + c2) / 2`, the limit being
folded the same way, pairwise and in arrival order; and there is such an input on which
this current differs from the true mean `(c0 + c1 + c2) / 3`. -/
theorem fetch_three_snapshots_pairwise_fold
    (newAdminClient : String → Except String (AdminClient F)) (server : String)
    (buckets : List String) (client : AdminClient F) (S0 S1 S2 : Sample F) (B : String)
    (d0 d1 d2 : Details F)
    (hclient : newAdminClient server = .ok client)
    (hstream : client.GetBucketBandwidth buckets = [S0, S1, S2])
    (h0 : S0.Report.BucketStats.get? B = some d0)
    (h1 : S1.Report.BucketStats.get? B = some d1)
    (h2 : S2.Report.BucketStats.get? B = some d2) :
    (∃ m, fetchInitialBandwidthData newAdminClient server buckets = .returned m
      ∧ m.get? B = some
          ⟨Int.tdiv (wrapInt64
              (Int.tdiv (wrapInt64 (d0.LimitInBytesPerSecond + d1.LimitInBytesPerSecond)) 2
                + d2.LimitInBytesPerSecond)) 2,
           ((d0.CurrentBandwidthInBytesPerSecond + d1.CurrentBandwidthInBytesPerSecond) / 2
              + d2.CurrentBandwidthInBytesPerSecond) / 2⟩)
    ∧ (∃ (m : GoMap (Details ℚ)) (e e0 e1 e2 : Details ℚ),
        fetchInitialBandwidthData (streaming [exampleS0, exampleS1, exampleS2]) "play/" []
          = .returned m
        ∧ exampleS0.Report.BucketStats.get? "a" = some e0
        ∧ exampleS1.Report.BucketStats.get? "a" = some e1
        ∧ exampleS2.Report.BucketStats.get? "a" = some e2
        ∧ m.get? "a" = some e
        ∧ e.CurrentBandwidthInBytesPerSecond
          ≠ (e0.CurrentBandwidthInBytesPerSecond + e1.CurrentBandwidthInBytesPerSecond
              + e2.CurrentBandwidthInBytesPerSecond) / 3) := by
  refine ⟨⟨_, fetch_of_stream newAdminClient server buckets client hclient, ?_⟩, ?_⟩
  · rw [hstream, get?_receiveLoop_three S0 S1 S2 B d0 d1 d2 h0 h1 h2]
    rfl
  · refine ⟨_, _, ⟨100, 5 / 2⟩, ⟨300, 3 / 2⟩, ⟨100, 4⟩, rfl, rfl, rfl, rfl,
      get?_receiveLoop_three exampleS0 exampleS1 exampleS2 "a" _ _ _ rfl rfl rfl, ?_⟩
    show (((5 / 2 : ℚ) + 3 / 2) / 2 + 4) / 2 ≠ (5 / 2 + 3 / 2 + 4) / 3
    norm_num

theorem fetch_three_snapshots_pairwise_fold_witness :
    streaming [exampleS0, exampleS1, exampleS2] "play/"
        = .ok ⟨fun _ => [exampleS0, exampleS1, exampleS2]⟩
      ∧ (fun _ : List String => [exampleS0, exampleS1, exampleS2]) []
        = [exampleS0, exampleS1, exampleS2]
      ∧ exampleS0.Report.BucketStats.get? "a" = some ⟨100, 5 / 2⟩
      ∧ exampleS1.Report.BucketStats.get? "a" = some ⟨300, 3 / 2⟩
      ∧ exampleS2.Report.BucketStats.get? "a" = some ⟨100, 4⟩
      ∧ ∃ m, fetchInitialBandwidthData (streaming [exampleS0, exampleS1, exampleS2]) "play/" []
            = .returned m
          ∧ m.get? "a" = some ⟨150, 3⟩ := by
  obtain ⟨m, hm, hget⟩ :=
    (fetch_three_snapshots_pairwise_fold (streaming [exampleS0, exampleS1, exampleS2])
      "play/" [] ⟨fun _ => [exampleS0, exampleS1, exampleS2]⟩ exampleS0 exampleS1 exampleS2
      "a" ⟨100, 5 / 2⟩ ⟨300, 3 / 2⟩ ⟨100, 4⟩ rfl rfl rfl rfl rfl).1
  have hl : Int.tdiv (wrapInt64 (Int.tdiv (wrapInt64 (100 + 300)) 2 + 100)) 2 = 150 := by
    decide
  have hc : (((5 / 2 : ℚ) + 3 / 2) / 2 + 4) / 2 = 3 := by norm_num
  refine ⟨rfl, rfl, rfl, rfl, rfl, m, hm, ?_⟩
  rw [hget]
  simp only [hl, hc]

/-- C4: a bucket `B` that is in snapshot 0 and in none of the later snapshots of the cycle
keeps the (limit, current) pair of snapshot 0 in the result; and a single fold step at an
index above 0 leaves the stored stat of every bucket that does not occur in the step's
snapshot as it was. -/
theorem fetch_seed_kept_when_absent_later
    (newAdminClient : String → Except String (AdminClient F)) (server : String)
    (buckets : List String) (client : AdminClient F) (S0 : Sample F)
    (rest : List (Sample F)) (B : String) (d0 : Details F)
    (hclient : newAdminClient server = .ok client)
    (hstream : client.GetBucketBandwidth buckets = S0 :: rest)
    (h0 : S0.Report.BucketStats.get? B = some d0)
    (habsent : ∀ S ∈ rest.take 9, S.Report.BucketStats.get? B = none) :
    (∃ m, fetchInitialBandwidthData newAdminClient server buckets = .returned m
      ∧ m.get? B = some d0)
    ∧ (∀ (i : Nat) (sample : Sample F) (bwSample : GoMap (Details F)) (B2 : String),
        0 < i → sample.Report.BucketStats.get? B2 = none →
        (foldSample i sample bwSample).get? B2 = bwSample.get? B2) := by
  refine ⟨⟨_, fetch_of_stream newAdminClient server buckets client hclient, ?_⟩, ?_⟩
  · rw [hstream, receiveLoop_zero_cons, get?_receiveLoop_absent B rest 1 _ (by decide) habsent,
      h0]
  · intro i sample bwSample B2 hi hnone
    rw [get?_foldSample_pos i hi, hnone]
    cases bwSample.get? B2 <;> rfl

theorem fetch_seed_kept_when_absent_later_witness :
    streaming [exampleS0, exampleS1, exampleS2] "play/"
        = .ok ⟨fun _ => [exampleS0, exampleS1, exampleS2]⟩
      ∧ (fun _ : List String => [exampleS0, exampleS1, exampleS2]) []
        = exampleS0 :: [exampleS1, exampleS2]
      ∧ exampleS0.Report.BucketStats.get? "b" = some ⟨200, 0⟩
      ∧ (∀ S ∈ [exampleS1, exampleS2].take 9, S.Report.BucketStats.get? "b" = none)
      ∧ ∃ m, fetchInitialBandwidthData (streaming [exampleS0, exampleS1, exampleS2]) "play/" []
            = .returned m
          ∧ m.get? "b" = some ⟨200, 0⟩ :=
  have habsent : ∀ S ∈ [exampleS1, exampleS2].take 9, S.Report.BucketStats.get? "b" = none := by
    intro S hS
    simp only [List.take_succ_cons, List.take_nil, List.mem_cons, List.mem_singleton,
      List.not_mem_nil, or_false] at hS
    rcases hS with h | h <;> (subst h; rfl)
  ⟨rfl, rfl, rfl, habsent,
    (fetch_seed_kept_when_absent_later (streaming [exampleS0, exampleS1, exampleS2])
      "play/" [] ⟨fun _ => [exampleS0, exampleS1, exampleS2]⟩ exampleS0
      [exampleS1, exampleS2] "b" ⟨200, 0⟩ rfl rfl rfl habsent).1⟩

/-- C5: in a cycle with at least one snapshot, a bucket absent from snapshot 0 is absent
from the returned map whatever the later snapshots contain; the bucket names of the
result are exactly the bucket names of snapshot 0. -/
theorem fetch_keys_are_seed_keys
    (newAdminClient : String → Except String (AdminClient F)) (server : String)
    (buckets : List String) (client : AdminClient F) (S0 : Sample F)
    (rest : List (Sample F))
    (hclient : newAdminClient server = .ok client)
    (hstream : client.GetBucketBandwidth buckets = S0 :: rest) :
    ∃ m, fetchInitialBandwidthData newAdminClient server buckets = .returned m
      ∧ (∀ B, S0.Report.BucketStats.get? B = none → m.get? B = none)
      ∧ (∀ B, B ∈ m.keys ↔ B ∈ S0.Report.BucketStats.keys)
      ∧ m.keys = S0.Report.BucketStats.keys := by
  have hkeys : (receiveLoop 0 (S0 :: rest) GoMap.empty).keys = S0.Report.BucketStats.keys := by
    rw [receiveLoop_zero_cons, keys_receiveLoop_pos rest 1 _ (by decide)]
  refine ⟨_, fetch_of_stream newAdminClient server buckets client hclient, ?_, ?_, ?_⟩
  · intro B hB
    rw [hstream, GoMap.get?_eq_none_iff, hkeys, ← GoMap.get?_eq_none_iff]
    exact hB
  · intro B
    rw [hstream, hkeys]
  · rw [hstream, hkeys]

theorem fetch_keys_are_seed_keys_witness :
    streaming [exampleS0, exampleS1, exampleS2] "play/"
        = .ok ⟨fun _ => [exampleS0, exampleS1, exampleS2]⟩
      ∧ (fun _ : List String => [exampleS0, exampleS1, exampleS2]) []
        = exampleS0 :: [exampleS1, exampleS2]
      ∧ ∃ m, fetchInitialBandwidthData (streaming [exampleS0, exampleS1, exampleS2]) "play/" []
            = .returned m
          ∧ (∀ B, exampleS0.Report.BucketStats.get? B = none → m.get? B = none)
          ∧ (∀ B, B ∈ m.keys ↔ B ∈ exampleS0.Report.BucketStats.keys)
          ∧ m.keys = exampleS0.Report.BucketStats.keys :=
  ⟨rfl, rfl,
    fetch_keys_are_seed_keys (streaming [exampleS0, exampleS1, exampleS2]) "play/" []
      ⟨fun _ => [exampleS0, exampleS1, exampleS2]⟩ exampleS0 [exampleS1, exampleS2] rfl rfl⟩

/-! ## The cycle against the fold of the specification -/

theorem get?_foldSample_eq_specFold (i : Nat) (sample : Sample F)
    (bwSample : GoMap (Details F)) :
    (foldSample i sample bwSample).get?
      = specFold bwSample.get? i sample.Report.BucketStats.get? := by
  funext B
  by_cases hi : i = 0
  · subst hi
    unfold specFold
    rw [if_pos rfl]
    exact get?_foldl_seedEntry _ sample.Report.BucketStats.nodup B bwSample
  · unfold specFold
    rw [if_neg hi]
    exact get?_foldSample_pos i (by omega) sample bwSample B

theorem receiveLoop_eq_specFoldFrom :
    ∀ (l : List (Sample F)) (i : Nat) (acc : GoMap (Details F)),
      (receiveLoop i l acc).get?
        = specFoldFrom i ((l.take (10 - i)).map fun S => S.Report.BucketStats.get?)
            acc.get? := by
  intro l
  induction l with
  | nil => intro i acc; simp [receiveLoop_nil, specFoldFrom]
  | cons S t ih =>
    intro i acc
    rw [receiveLoop_cons]
    split
    · have hsplit : 10 - i = (10 - (i + 1)) + 1 := by omega
      rw [ih, hsplit, List.take_succ_cons, List.map_cons, get?_foldSample_eq_specFold]
      rfl
    · have hzero : 10 - i = 0 := by omega
      rw [hzero]
      rfl

theorem receiveLoop_eq_foldl :
    ∀ (l : List (Sample F)) (i : Nat) (acc : GoMap (Details F)),
      receiveLoop i l acc
        = ((l.take (10 - i)).enumFrom i).foldl (fun m p => foldSample p.1 p.2 m) acc := by
  intro l
  induction l with
  | nil => intro i acc; simp [receiveLoop_nil]
  | cons S t ih =>
    intro i acc
    rw [receiveLoop_cons]
    split
    · have hsplit : 10 - i = (10 - (i + 1)) + 1 := by omega
      rw [ih, hsplit, List.take_succ_cons, List.enumFrom_cons, List.foldl_cons]
    · have hzero : 10 - i = 0 := by omega
      rw [hzero]
      rfl

theorem take_min_length {α : Type} (l : List α) (n : Nat) :
    l.take (min n l.length) = l.take n := by
  rw [List.take_eq_take]
  omega

/-- C6: for a stream that delivers `n` snapshots before it is closed, one call of
`fetchInitialBandwidthData` returns normally, and its result is the fold, in arrival
order and with indices 0, 1, ..., of exactly the first `min(10, n)` snapshots: it agrees
with the cycle of the specification, it is the empty map when `n = 0`, and it is the
same for every stream with the same first ten snapshots. -/
theorem fetch_folds_first_ten
    (newAdminClient : String → Except String (AdminClient F)) (server : String)
    (buckets : List String) (client : AdminClient F)
    (hclient : newAdminClient server = .ok client) :
    ∃ m, fetchInitialBandwidthData newAdminClient server buckets = .returned m
      ∧ m = (((client.GetBucketBandwidth buckets).take
                (min 10 (client.GetBucketBandwidth buckets).length)).enumFrom 0).foldl
              (fun acc p => foldSample p.1 p.2 acc) GoMap.empty
      ∧ (∀ B, m.get? B
          = specRunCycle
              ((client.GetBucketBandwidth buckets).map fun S => S.Report.BucketStats.get?) B)
      ∧ (client.GetBucketBandwidth buckets = [] → m = GoMap.empty)
      ∧ (∀ (newAdminClient2 : String → Except String (AdminClient F))
           (client2 : AdminClient F),
           newAdminClient2 server = .ok client2 →
           (client2.GetBucketBandwidth buckets).take 10
             = (client.GetBucketBandwidth buckets).take 10 →
           fetchInitialBandwidthData newAdminClient2 server buckets = .returned m) := by
  refine ⟨_, fetch_of_stream newAdminClient server buckets client hclient, ?_, ?_, ?_, ?_⟩
  · rw [receiveLoop_eq_foldl, take_min_length]
  · intro B
    rw [receiveLoop_eq_specFoldFrom]
    unfold specRunCycle
    rw [take_min_length, List.map_take]
    rfl
  · intro hnil
    rw [hnil, receiveLoop_nil]
  · intro newAdminClient2 client2 hclient2 htake
    rw [fetch_of_stream newAdminClient2 server buckets client2 hclient2,
      receiveLoop_eq_foldl, receiveLoop_eq_foldl, htake]

theorem fetch_folds_first_ten_witness :
    streaming (List.replicate 10 exampleS0 ++ [exampleS1]) "play/"
        = .ok ⟨fun _ => List.replicate 10 exampleS0 ++ [exampleS1]⟩
      ∧ ∃ m, fetchInitialBandwidthData
            (streaming (List.replicate 10 exampleS0 ++ [exampleS1])) "play/" [] = .returned m
          ∧ m = (((List.replicate 10 exampleS0 ++ [exampleS1]).take
                    (min 10 (List.replicate 10 exampleS0 ++ [exampleS1]).length)).enumFrom
                  0).foldl (fun acc p => foldSample p.1 p.2 acc) GoMap.empty
          ∧ (∀ B, m.get? B
              = specRunCycle ((List.replicate 10 exampleS0 ++ [exampleS1]).map
                  fun S => S.Report.BucketStats.get?) B)
          ∧ (List.replicate 10 exampleS0 ++ [exampleS1] = [] → m = GoMap.empty)
          ∧ (∀ (newAdminClient2 : String → Except String (AdminClient ℚ))
               (client2 : AdminClient ℚ),
               newAdminClient2 "play/" = .ok client2 →
               (client2.GetBucketBandwidth []).take 10
                 = (List.replicate 10 exampleS0 ++ [exampleS1]).take 10 →
               fetchInitialBandwidthData newAdminClient2 "play/" [] = .returned m) :=
  ⟨rfl,
    fetch_folds_first_ten (streaming (List.replicate 10 exampleS0 ++ [exampleS1])) "play/" []
      ⟨fun _ => List.replicate 10 exampleS0 ++ [exampleS1]⟩ rfl⟩

end Cycle

/-! ## Claims about failures, renderings and the refresh loop -/

section Loop

variable {F : Type} [Add F] [Div F] [OfNat F 2]

/-- Every rewind of the loop uses the value of `rewindLines` it was started with, and
every request to the sample source uses the `urlStr` and `buckets` it was started with. -/
theorem refreshLoop_events (con : Console F)
    (world : Nat → String → Except String (AdminClient F)) (urlStr : String)
    (buckets : List String) (rewindLines : Nat) :
    ∀ (cycles cycle : Nat) (ev : Event F),
      ev ∈ refreshLoop con world urlStr buckets rewindLines cycle cycles →
      (∀ n, ev = .rewindLines n → n = rewindLines)
        ∧ (∀ s bs, ev = .getBucketBandwidth s bs → s = urlStr ∧ bs = buckets) := by
  intro cycles
  induction cycles with
  | zero => intro cycle ev hev; simp [refreshLoop] at hev
  | succ k ih =>
    intro cycle ev hev
    unfold refreshLoop at hev
    rw [List.mem_cons] at hev
    rcases hev with hev | hev
    · subst hev
      exact ⟨fun n h => (by cases h), fun s bs h => (by cases h; exact ⟨rfl, rfl⟩)⟩
    · cases hfetch : fetchInitialBandwidthData (world cycle) urlStr buckets with
      | fatal err msg =>
        rw [hfetch] at hev
        simp only [List.mem_singleton] at hev
        subst hev
        exact ⟨fun n h => (by cases h), fun s bs h => (by cases h)⟩
      | returned bwSample =>
        rw [hfetch] at hev
        simp only [List.mem_append, List.mem_map, List.mem_cons] at hev
        rcases hev with ⟨t, _, ht⟩ | hev | hev
        · subst ht
          exact ⟨fun n h => (by cases h), fun s bs h => (by cases h)⟩
        · subst hev
          exact ⟨fun n h => (by cases h; rfl), fun s bs h => (by cases h)⟩
        · exact ih (cycle + 1) ev hev

/-- Whatever the invocation and the server, every rewind of `mainAdminBwInfo` is by 0
lines and every request to the sample source carries the empty bucket filter. -/
theorem mainAdminBwInfo_events (con : Console F)
    (world : Nat → String → Except String (AdminClient F)) (ctx : Context) (cycles : Nat)
    (ev : Event F) (hev : ev ∈ mainAdminBwInfo con world ctx cycles) :
    (∀ n, ev = .rewindLines n → n = 0)
      ∧ (∀ s bs, ev = .getBucketBandwidth s bs → bs = []) := by
  unfold mainAdminBwInfo at hev
  split at hev
  · simp only [List.mem_singleton] at hev
    subst hev
    exact ⟨fun n h => (by cases h), fun s bs h => (by cases h)⟩
  · simp only [List.mem_cons] at hev
    rcases hev with hev | hev
    · subst hev
      exact ⟨fun n h => (by cases h), fun s bs h => (by cases h)⟩
    · have h := refreshLoop_events con world _ _ _ cycles 0 ev hev
      exact ⟨fun n hn => (by simpa using h.1 n hn), fun s bs hs => (h.2 s bs hs).2⟩

/-- C7: evaluation at a stream whose only sample carries an error.  The claim wants the
invocation to end with a failure; `fetchInitialBandwidthData` never looks at the error of
a sample, returns the empty map as a normal result, and `mainAdminBwInfo` renders it and
goes on (a failing client constructor, by contrast, is fatal). -/
theorem fetch_returns_normally_on_sample_error :
    fetchInitialBandwidthData (streaming [brokenSample]) "play/" []
        = .returned GoMap.empty
      ∧ (∀ con : Console ℚ,
          mainAdminBwInfo con (fun _ => streaming [brokenSample]) ⟨["play/"], [], []⟩ 1
            = [.printC (con.Colorize "BlinkLoad"
                "COLLECTING SAMPLES & CALCULATING SUM & AVERAGE. These are the initial values..\n"),
               .getBucketBandwidth "play/" [],
               .rewindLines 0])
      ∧ fetchInitialBandwidthData (fun _ => (.error "no such alias" :
            Except String (AdminClient ℚ))) "play/" []
        = .fatal "no such alias" "Unable to initialize admin connection with play/" :=
  ⟨rfl, fun _ => rfl, rfl⟩

/-- C8, as the claim states it, fails: the JSON rendering of a record with status `error`
returns normally, and its output contains the populated result map of the record. -/
theorem json_of_error_record_returns :
    errorRecord.Status = "error"
      ∧ bandwidthSingleStruct_JSON (fun _ => false) errorRecord
        = .returned (.object
            [("status", .str "error"),
             ("error", .str "connection refused"),
             ("server", .str "play/"),
             ("result", .object
               [("a", .object [("limitInBytesPerSecond", .int 100),
                               ("currentBandwidthInBytesPerSecond", .float (5 / 2))]),
                ("b", .object [("limitInBytesPerSecond", .int 200),
                               ("currentBandwidthInBytesPerSecond", .float 0)])])]) :=
  ⟨rfl, rfl⟩

/-- C8, amended: for a record whose status is `error`, the `String` rendering ends the
invocation fatally with the record's error text as the failure description and returns no
output.  The `JSON` rendering does not look at the status: when every throughput can be
marshalled it returns the record (status, error and server when not empty, and the result
map as stored), and it is fatal exactly when marshalling fails. -/
theorem render_error_record {F : Type} (con : Console F) (unsupported : F → Bool)
    (b : bandwidthSingleStruct F) (hstatus : b.Status = "error") :
    bandwidthSingleStruct_String con b = .fatal b.Error "Unable to get service status"
      ∧ (b.Result.BucketStats.entries.any
            (fun e => unsupported e.2.CurrentBandwidthInBytesPerSecond) = false →
          bandwidthSingleStruct_JSON unsupported b
            = .returned (.object (
                [("status", .str "error")]
                ++ (if b.Error = "" then [] else [("error", .str b.Error)])
                ++ (if b.Server = "" then [] else [("server", .str b.Server)])
                ++ [("result", .object (b.Result.BucketStats.entries.map fun e =>
                      (e.1, .object
                        [("limitInBytesPerSecond", .int e.2.LimitInBytesPerSecond),
                         ("currentBandwidthInBytesPerSecond",
                            .float e.2.CurrentBandwidthInBytesPerSecond)])))])))
      ∧ (b.Result.BucketStats.entries.any
            (fun e => unsupported e.2.CurrentBandwidthInBytesPerSecond) = true →
          bandwidthSingleStruct_JSON unsupported b
            = .fatal "json: unsupported value" "Unable to marshal into JSON.") := by
  refine ⟨?_, ?_, ?_⟩
  · unfold bandwidthSingleStruct_String
    rw [if_pos hstatus]
  · intro hok
    unfold bandwidthSingleStruct_JSON MarshalIndent
    rw [hok, hstatus]
    rfl
  · intro hbad
    unfold bandwidthSingleStruct_JSON MarshalIndent
    rw [hbad]
    rfl

theorem render_error_record_witness :
    errorRecord.Status = "error"
      ∧ bandwidthSingleStruct_String (⟨fun _ t => t, ".", fun _ => "", fun t => t⟩ : Console ℚ)
          errorRecord
        = .fatal errorRecord.Error "Unable to get service status" :=
  ⟨rfl, (render_error_record ⟨fun _ t => t, ".", fun _ => "", fun t => t⟩ (fun _ => false)
    errorRecord rfl).1⟩

/-- C9: evaluation of one loop iteration against a server that reports two buckets.  The
claim wants 4 lines rewound per rendered bucket, 8 here; the code rewinds the constant
`4 * len(buckets)` computed before the loop from the never-assigned `buckets`, that is 0,
after displaying two tables. -/
theorem rewind_is_zero_after_two_tables :
    ∀ con : Console ℚ,
      mainAdminBwInfo con (fun _ => streaming [exampleS0]) ⟨["play/"], [], []⟩ 1
        = [.printC (con.Colorize "BlinkLoad"
            "COLLECTING SAMPLES & CALCULATING SUM & AVERAGE. These are the initial values..\n"),
           .getBucketBandwidth "play/" [],
           .displayTable
             [["Bucket", "Avg Current Bandwidth", "Avg Limit Bandwidth"],
              [con.SprintfFormatOnly (con.Colorize "InfoHeader" "a"),
               con.Sprintf4f (5 / 2), "100"]],
           .displayTable
             [["Bucket", "Avg Current Bandwidth", "Avg Limit Bandwidth"],
              [con.SprintfFormatOnly (con.Colorize "InfoHeader" "b"),
               con.Sprintf4f 0, "200"]],
           .rewindLines 0] :=
  fun _ => rfl

/-- C10: evaluation of two loop iterations of an invocation with `--bucket bucket1
--bucket bucket2`.  The claim wants the sample source to be asked for exactly these two
names in every cycle; the code never reads the flag and asks with the empty filter. -/
theorem bucket_flag_not_handed_to_source :
    ∀ con : Console ℚ,
      mainAdminBwInfo con (fun _ => streaming [exampleS2])
          ⟨["play/"], ["bucket1", "bucket2"], []⟩ 2
        = [.printC (con.Colorize "BlinkLoad"
            "COLLECTING SAMPLES & CALCULATING SUM & AVERAGE. These are the initial values..\n"),
           .getBucketBandwidth "play/" [],
           .displayTable
             [["Bucket", "Avg Current Bandwidth", "Avg Limit Bandwidth"],
              [con.SprintfFormatOnly (con.Colorize "InfoHeader" "a"),
               con.Sprintf4f 4, "100"]],
           .rewindLines 0,
           .getBucketBandwidth "play/" [],
           .displayTable
             [["Bucket", "Avg Current Bandwidth", "Avg Limit Bandwidth"],
              [con.SprintfFormatOnly (con.Colorize "InfoHeader" "a"),
               con.Sprintf4f 4, "100"]],
           .rewindLines 0] :=
  fun _ => rfl

end Loop

/-! ## printTable -/

section Table

theorem lookup_of_mem_nodup {V : Type} (l : List (String × V)) (hl : (l.map Prod.fst).Nodup)
    (k : String) (v : V) (hmem : (k, v) ∈ l) : l.lookup k = some v := by
  induction l with
  | nil => cases hmem
  | cons e t ih =>
    obtain ⟨k1, v1⟩ := e
    rw [List.map_cons, List.nodup_cons] at hl
    rw [List.mem_cons] at hmem
    rcases hmem with h | h
    · cases h
      simp [List.lookup_cons]
    · have hne : k ≠ k1 := by
        intro hk
        subst hk
        exact hl.1 (List.mem_map.2 ⟨(k, v), h, rfl⟩)
      have hb : (k == k1) = false := by simpa using hne
      simp only [List.lookup_cons, hb]
      exact ih hl.2 h

theorem mem_of_lookup_eq_some {V : Type} (l : List (String × V)) (k : String) (v : V)
    (h : l.lookup k = some v) : (k, v) ∈ l := by
  induction l with
  | nil => cases h
  | cons e t ih =>
    obtain ⟨k1, v1⟩ := e
    by_cases hk : k = k1
    · subst hk
      simp only [List.lookup_cons, beq_self_eq_true, Option.some.injEq] at h
      subst h
      exact List.mem_cons_self _ _
    · have hb : (k == k1) = false := by simpa using hk
      simp only [List.lookup_cons, hb] at h
      exact List.mem_cons_of_mem _ (ih h)

theorem formatFixed4_example : formatFixed4 12.3456 = "12.3456" := by
  have hnum : (12.3456 : ℚ).num = 7716 := by norm_num
  have hden : (12.3456 : ℚ).den = 625 := by norm_num
  have hneg : ¬ ((12.3456 : ℚ) < 0) := by norm_num
  unfold formatFixed4
  rw [hnum, hden, if_neg hneg]
  decide

theorem formatFixed4_zero : formatFixed4 0 = "0.0000" := by
  have hneg : ¬ ((0 : ℚ) < 0) := by norm_num
  unfold formatFixed4
  rw [Rat.num_zero, Rat.den_zero, if_neg hneg]
  decide

theorem digitChar_isDigit (k : Nat) (hk : k < 10) : (Nat.digitChar k).isDigit = true := by
  interval_cases k <;> decide

/-- The text `formatFixed4` produces ends in a point followed by exactly four digits. -/
theorem formatFixed4_shape (x : ℚ) :
    ∃ (intPart : String) (d1 d2 d3 d4 : Char),
      formatFixed4 x = intPart ++ "." ++ String.mk [d1, d2, d3, d4]
        ∧ d1.isDigit = true ∧ d2.isDigit = true ∧ d3.isDigit = true ∧ d4.isDigit = true := by
  refine ⟨_, _, _, _, _, rfl, ?_, ?_, ?_, ?_⟩ <;> apply digitChar_isDigit <;> omega

theorem printTable_eq_map {F : Type} (con : Console F) (m : GoMap (Details F)) :
    printTable con m = m.entries.map fun e =>
      [["Bucket", "Avg Current Bandwidth", "Avg Limit Bandwidth"],
       [con.SprintfFormatOnly (con.Colorize "InfoHeader" e.1),
        con.Sprintf4f e.2.CurrentBandwidthInBytesPerSecond,
        toString e.2.LimitInBytesPerSecond]] := rfl

/-- C11: `printTable` emits exactly one table per bucket of the map, in iteration order, and
none for any other bucket (nothing for the empty map).  The data row of the table of
bucket `B` holds the name of `B` as `Colorize` and `Sprintf` render it, the current
throughput under `%.4f` and the limit as a decimal integer; without colours the map
`a ↦ (100, 12.3456)`, `b ↦ (200, 0.0)` gives the rows `a, 12.3456, 100` and
`b, 0.0000, 200`, and `%.4f` always ends in a point and exactly four digits. -/
theorem printTable_one_table_per_bucket {F : Type} (con : Console F)
    (m : GoMap (Details F)) :
    (printTable con m).length = m.len
      ∧ printTable con (GoMap.empty : GoMap (Details F)) = []
      ∧ m.keys.Nodup
      ∧ printTable con m = m.keys.filterMap (fun B => (m.get? B).map fun d =>
          [["Bucket", "Avg Current Bandwidth", "Avg Limit Bandwidth"],
           [con.SprintfFormatOnly (con.Colorize "InfoHeader" B),
            con.Sprintf4f d.CurrentBandwidthInBytesPerSecond,
            toString d.LimitInBytesPerSecond]])
      ∧ (∀ table, table ∈ printTable con m ↔
          ∃ B d, m.get? B = some d ∧ table =
            [["Bucket", "Avg Current Bandwidth", "Avg Limit Bandwidth"],
             [con.SprintfFormatOnly (con.Colorize "InfoHeader" B),
              con.Sprintf4f d.CurrentBandwidthInBytesPerSecond,
              toString d.LimitInBytesPerSecond]])
      ∧ printTable plainConsole exampleAggregate
          = [[["Bucket", "Avg Current Bandwidth", "Avg Limit Bandwidth"],
              ["a", "12.3456", "100"]],
             [["Bucket", "Avg Current Bandwidth", "Avg Limit Bandwidth"],
              ["b", "0.0000", "200"]]]
      ∧ (∀ x : ℚ, ∃ (intPart : String) (d1 d2 d3 d4 : Char),
          plainConsole.Sprintf4f x = intPart ++ "." ++ String.mk [d1, d2, d3, d4]
            ∧ d1.isDigit = true ∧ d2.isDigit = true ∧ d3.isDigit = true
            ∧ d4.isDigit = true) := by
  refine ⟨?_, rfl, m.nodup, ?_, ?_, ?_, formatFixed4_shape⟩
  · rw [printTable_eq_map, List.length_map]
    rfl
  · rw [printTable_eq_map]
    unfold GoMap.keys
    rw [List.filterMap_map, ← List.filterMap_eq_map]
    apply List.filterMap_congr
    intro e he
    have hget : m.get? e.1 = some e.2 := lookup_of_mem_nodup m.entries m.nodup e.1 e.2 he
    simp [hget]
  · intro table
    rw [printTable_eq_map, List.mem_map]
    constructor
    · rintro ⟨e, he, rfl⟩
      exact ⟨e.1, e.2, lookup_of_mem_nodup m.entries m.nodup e.1 e.2 he, rfl⟩
    · rintro ⟨B, d, hget, rfl⟩
      exact ⟨(B, d), mem_of_lookup_eq_some m.entries B d hget, rfl⟩
  · have hentries : exampleAggregate.entries = [("a", ⟨100, 12.3456⟩), ("b", ⟨200, 0⟩)] := rfl
    have h100 : toString (100 : Int) = "100" := rfl
    have h200 : toString (200 : Int) = "200" := rfl
    rw [printTable_eq_map, hentries]
    simp only [List.map_cons, List.map_nil, plainConsole, formatFixed4_example,
      formatFixed4_zero, h100, h200]

end Table

/-! ## The refresh loop and cancellation -/

section Cancel

variable {F : Type} [Add F] [Div F] [OfNat F 2]

theorem refreshLoop_succ (con : Console F)
    (world : Nat → String → Except String (AdminClient F)) (urlStr : String)
    (buckets : List String) (rewindLines cycle n : Nat) :
    refreshLoop con world urlStr buckets rewindLines cycle (n + 1)
      = .getBucketBandwidth urlStr buckets ::
          match fetchInitialBandwidthData (world cycle) urlStr buckets with
          | .fatal err msg => [.fatal err msg]
          | .returned bwSample =>
            (printTable con bwSample).map .displayTable
              ++ .rewindLines rewindLines
                :: refreshLoop con world urlStr buckets rewindLines (cycle + 1) n := rfl

/-- While the construction of the admin client succeeds, every iteration of the loop
requests the stream, displays the tables of the returned aggregate and rewinds, and the
next iteration follows. -/
theorem refreshLoop_of_ok (con : Console F)
    (world : Nat → String → Except String (AdminClient F)) (clients : Nat → AdminClient F)
    (urlStr : String) (buckets : List String) (rewindLines : Nat) :
    ∀ (cycles cycle : Nat),
      (∀ c, cycle ≤ c → c < cycle + cycles → world c urlStr = .ok (clients c)) →
      refreshLoop con world urlStr buckets rewindLines cycle cycles
        = (List.range' cycle cycles).flatMap fun c =>
            .getBucketBandwidth urlStr buckets ::
              ((printTable con
                  (receiveLoop 0 ((clients c).GetBucketBandwidth buckets) GoMap.empty)).map
                  .displayTable
                ++ [.rewindLines rewindLines]) := by
  intro cycles
  induction cycles with
  | zero => intro cycle _; rfl
  | succ k ih =>
    intro cycle hok
    have hfetch := fetch_of_stream (world cycle) urlStr buckets (clients cycle)
      (hok cycle (Nat.le_refl _) (by omega))
    rw [List.range'_succ, List.flatMap_cons, ← ih (cycle + 1) (fun c h1 h2 =>
      hok c (by omega) (by omega))]
    rw [refreshLoop_succ, hfetch]
    simp

theorem formatFixed4_five_halves : formatFixed4 (5 / 2) = "2.5000" := by
  have hnum : ((5 / 2 : ℚ)).num = 5 := by norm_num
  have hden : ((5 / 2 : ℚ)).den = 2 := by norm_num
  have hneg : ¬ ((5 / 2 : ℚ) < 0) := by norm_num
  unfold formatFixed4
  rw [hnum, hden, if_neg hneg]
  decide

theorem trace_after_cancellation (con : Console ℚ) :
    mainAdminBwInfo con (worldCancelledAt (fun _ => [exampleS0, exampleS1]) 0 1)
        ⟨["play/"], [], []⟩ 2
      = [.printC (con.Colorize "BlinkLoad"
          "COLLECTING SAMPLES & CALCULATING SUM & AVERAGE. These are the initial values..\n"),
         .getBucketBandwidth "play/" [],
         .displayTable
           [["Bucket", "Avg Current Bandwidth", "Avg Limit Bandwidth"],
            [con.SprintfFormatOnly (con.Colorize "InfoHeader" "a"),
             con.Sprintf4f (5 / 2), "100"]],
         .displayTable
           [["Bucket", "Avg Current Bandwidth", "Avg Limit Bandwidth"],
            [con.SprintfFormatOnly (con.Colorize "InfoHeader" "b"),
             con.Sprintf4f 0, "200"]],
         .rewindLines 0,
         .getBucketBandwidth "play/" [],
         .rewindLines 0] := rfl

/-- C12, as the claim states it, fails: the context is cancelled while the first cycle has
received one of its two samples.  The aggregate of that cycle in progress is rendered
all the same (two tables), and the loop goes on with a second request to the source. -/
theorem render_after_cancellation :
    mainAdminBwInfo plainConsole (worldCancelledAt (fun _ => [exampleS0, exampleS1]) 0 1)
        ⟨["play/"], [], []⟩ 2
      = [.printC
          "COLLECTING SAMPLES & CALCULATING SUM & AVERAGE. These are the initial values..\n",
         .getBucketBandwidth "play/" [],
         .displayTable
           [["Bucket", "Avg Current Bandwidth", "Avg Limit Bandwidth"],
            ["a", "2.5000", "100"]],
         .displayTable
           [["Bucket", "Avg Current Bandwidth", "Avg Limit Bandwidth"],
            ["b", "0.0000", "200"]],
         .rewindLines 0,
         .getBucketBandwidth "play/" [],
         .rewindLines 0] := by
  rw [trace_after_cancellation plainConsole]
  simp only [plainConsole, formatFixed4_five_halves, formatFixed4_zero]

/-- C12, amended: the refresh loop of `mainAdminBwInfo` contains no cancellation check.
As long as the construction of the admin client succeeds, each of its iterations requests
the stream, renders the aggregate that `fetchInitialBandwidthData` returned and rewinds,
and the next iteration starts.  In particular, when a cancellation closes the stream, the
aggregate of the samples received so far in the cycle in progress is rendered, and the
loop goes on. -/
theorem refresh_loop_renders_every_cycle (con : Console F)
    (world : Nat → String → Except String (AdminClient F)) (clients : Nat → AdminClient F)
    (ctx : Context) (cycles : Nat)
    (hargs : ctx.Args.length ≤ 1)
    (hok : ∀ c, c < cycles → world c (ctx.Args.getD 0 "") = .ok (clients c)) :
    mainAdminBwInfo con world ctx cycles
        = .printC (con.Colorize "BlinkLoad"
            "COLLECTING SAMPLES & CALCULATING SUM & AVERAGE. These are the initial values..\n")
          :: (List.range cycles).flatMap (fun c =>
            .getBucketBandwidth (ctx.Args.getD 0 "") [] ::
              ((printTable con
                  (receiveLoop 0 ((clients c).GetBucketBandwidth []) GoMap.empty)).map
                  .displayTable
                ++ [.rewindLines 0]))
      ∧ (∀ (source : Nat → List (Sample F)) (cancelCycle received : Nat),
          mainAdminBwInfo con (worldCancelledAt source cancelCycle received) ctx cycles
            = .printC (con.Colorize "BlinkLoad"
                "COLLECTING SAMPLES & CALCULATING SUM & AVERAGE. These are the initial values..\n")
              :: (List.range cycles).flatMap (fun c =>
                .getBucketBandwidth (ctx.Args.getD 0 "") [] ::
                  ((printTable con
                      (receiveLoop 0
                        (if c < cancelCycle then source c
                         else if c = cancelCycle then (source c).take received
                         else [])
                        GoMap.empty)).map .displayTable
                    ++ [.rewindLines 0]))) := by
  have hmain : ∀ (w : Nat → String → Except String (AdminClient F))
      (cl : Nat → AdminClient F),
      (∀ c, c < cycles → w c (ctx.Args.getD 0 "") = .ok (cl c)) →
      mainAdminBwInfo con w ctx cycles
        = .printC (con.Colorize "BlinkLoad"
            "COLLECTING SAMPLES & CALCULATING SUM & AVERAGE. These are the initial values..\n")
          :: (List.range cycles).flatMap fun c =>
            .getBucketBandwidth (ctx.Args.getD 0 "") [] ::
              ((printTable con
                  (receiveLoop 0 ((cl c).GetBucketBandwidth []) GoMap.empty)).map
                  .displayTable
                ++ [.rewindLines 0]) := by
    intro w cl hw
    unfold mainAdminBwInfo
    rw [if_neg (by omega), List.range_eq_range']
    simp only
    rw [refreshLoop_of_ok con w cl _ _ _ cycles 0 (fun c _ h2 => hw c (by omega))]
    rfl
  refine ⟨hmain world clients hok, ?_⟩
  intro source cancelCycle received
  exact hmain (worldCancelledAt source cancelCycle received)
    (fun c => ⟨fun _ =>
      if c < cancelCycle then source c
      else if c = cancelCycle then (source c).take received
      else []⟩) (fun _ _ => rfl)

theorem refresh_loop_renders_every_cycle_witness :
    (⟨["play/"], [], []⟩ : Context).Args.length ≤ 1
      ∧ (∀ c, c < 2 → streaming [exampleS2] ((⟨["play/"], [], []⟩ : Context).Args.getD 0 "")
          = .ok ((fun _ => ⟨fun _ => [exampleS2]⟩ : Nat → AdminClient ℚ) c))
      ∧ mainAdminBwInfo plainConsole (fun _ => streaming [exampleS2]) ⟨["play/"], [], []⟩ 2
        = .printC (plainConsole.Colorize "BlinkLoad"
            "COLLECTING SAMPLES & CALCULATING SUM & AVERAGE. These are the initial values..\n")
          :: (List.range 2).flatMap (fun _ =>
            .getBucketBandwidth ((⟨["play/"], [], []⟩ : Context).Args.getD 0 "") [] ::
              ((printTable plainConsole (receiveLoop 0 [exampleS2] GoMap.empty)).map
                  .displayTable
                ++ [.rewindLines 0])) :=
  ⟨by decide, fun _ _ => rfl,
    (refresh_loop_renders_every_cycle plainConsole (fun _ => streaming [exampleS2])
      (fun _ => ⟨fun _ => [exampleS2]⟩) ⟨["play/"], [], []⟩ 2 (by decide)
      (fun _ _ => rfl)).1⟩

end Cancel

/-! ## The weights of the samples in the result -/

section Weights

theorem get?_receiveLoop_running {F : Type} [Add F] [Div F] [OfNat F 2] (B : String)
    (d : Nat → Details F) :
    ∀ (rest : List (Sample F)) (j : Nat) (acc : GoMap (Details F)) (v : Details F),
      j + 1 + rest.length ≤ 10 →
      (∀ k S, rest[k]? = some S → S.Report.BucketStats.get? B = some (d (j + 1 + k))) →
      acc.get? B = some v →
      v.CurrentBandwidthInBytesPerSecond
        = runningCurrent (fun k => (d k).CurrentBandwidthInBytesPerSecond) j →
      ∃ e, (receiveLoop (j + 1) rest acc).get? B = some e
        ∧ e.CurrentBandwidthInBytesPerSecond
          = runningCurrent (fun k => (d k).CurrentBandwidthInBytesPerSecond)
              (j + rest.length) := by
  intro rest
  induction rest with
  | nil => intro j acc v _ _ hacc hv; exact ⟨v, hacc, hv⟩
  | cons S t ih =>
    intro j acc v hlen hB hacc hv
    rw [List.length_cons] at hlen
    have hS : S.Report.BucketStats.get? B = some (d (j + 1)) := hB 0 S (by simp)
    have hstep : (foldSample (j + 1) S acc).get? B = some (pairAverage v (d (j + 1))) := by
      rw [get?_foldSample_pos (j + 1) (by omega), hacc, hS]
    obtain ⟨e, he, hcur⟩ := ih (j + 1) (foldSample (j + 1) S acc) (pairAverage v (d (j + 1)))
      (by omega)
      (fun k S2 hk => by
        have h := hB (k + 1) S2 (by simpa using hk)
        rw [h]
        congr 2
        omega)
      hstep
      (by
        show (v.CurrentBandwidthInBytesPerSecond
            + (d (j + 1)).CurrentBandwidthInBytesPerSecond) / 2 = _
        rw [hv]
        rfl)
    refine ⟨e, ?_, ?_⟩
    · rw [receiveLoop_cons, if_pos (by omega)]
      exact he
    · rw [hcur, List.length_cons]
      congr 1
      omega

variable {K : Type} [LinearOrderedField K]

theorem runningCurrent_closed_form (c : Nat → K) :
    ∀ n, runningCurrent c n
      = c 0 / 2 ^ n + ∑ k ∈ Finset.Icc 1 n, c k / 2 ^ (n - k + 1) := by
  intro n
  induction n with
  | zero => simp [runningCurrent]
  | succ n ih =>
    have hsum : ∑ k ∈ Finset.Icc 1 n, c k / 2 ^ (n + 1 - k + 1)
        = (∑ k ∈ Finset.Icc 1 n, c k / 2 ^ (n - k + 1)) / 2 := by
      rw [Finset.sum_div]
      apply Finset.sum_congr rfl
      intro k hk
      have hkn : k ≤ n := (Finset.mem_Icc.1 hk).2
      have hexp : n + 1 - k + 1 = (n - k + 1) + 1 := by omega
      rw [hexp, pow_succ, div_mul_eq_div_div]
    have hlast : n + 1 - (n + 1) + 1 = 1 := by omega
    rw [runningCurrent, ih, Finset.sum_Icc_succ_top (by omega), hsum, hlast, pow_succ]
    field_simp
    ring

theorem runningCurrent_const_one : ∀ n, runningCurrent (fun _ => (1 : K)) n = 1 := by
  intro n
  induction n with
  | zero => rfl
  | succ n ih =>
    rw [runningCurrent, ih]
    norm_num

theorem runningCurrent_bounds (c : Nat → K) (lo hi : K) :
    ∀ n, (∀ k, k ≤ n → lo ≤ c k ∧ c k ≤ hi) →
      lo ≤ runningCurrent c n ∧ runningCurrent c n ≤ hi := by
  intro n
  induction n with
  | zero => intro h; exact h 0 (Nat.le_refl 0)
  | succ n ih =>
    intro h
    have hprev := ih (fun k hk => h k (by omega))
    have hnew := h (n + 1) (Nat.le_refl _)
    rw [runningCurrent]
    constructor
    · rw [le_div_iff₀ (by norm_num : (0 : K) < 2)]
      linarith [hprev.1, hnew.1]
    · rw [div_le_iff₀ (by norm_num : (0 : K) < 2)]
      linarith [hprev.2, hnew.2]

/-- C13: for `n ≤ 9` and a cycle of `n + 1` snapshots in each of which bucket `B` occurs,
with throughput `c k` in snapshot `k`, the throughput of `B` in the result, computed in
exact arithmetic, is `c 0 / 2 ^ n + ∑ k = 1..n, c k / 2 ^ (n - k + 1)`.  The weights sum
to 1, the newest sample has weight `1 / 2`, and the result lies between the minimum and
the maximum of the `n + 1` sample values. -/
theorem fetch_current_is_geometric_sum
    (newAdminClient : String → Except String (AdminClient K)) (server : String)
    (buckets : List String) (client : AdminClient K) (stream : List (Sample K))
    (B : String) (d : Nat → Details K) (n : Nat)
    (hn : n ≤ 9)
    (hclient : newAdminClient server = .ok client)
    (hstream : client.GetBucketBandwidth buckets = stream)
    (hlen : stream.length = n + 1)
    (hB : ∀ k S, stream[k]? = some S → S.Report.BucketStats.get? B = some (d k)) :
    ∃ m e, fetchInitialBandwidthData newAdminClient server buckets = .returned m
      ∧ m.get? B = some e
      ∧ e.CurrentBandwidthInBytesPerSecond
          = (d 0).CurrentBandwidthInBytesPerSecond / 2 ^ n
            + ∑ k ∈ Finset.Icc 1 n, (d k).CurrentBandwidthInBytesPerSecond / 2 ^ (n - k + 1)
      ∧ (1 : K) / 2 ^ n + ∑ k ∈ Finset.Icc 1 n, 1 / 2 ^ (n - k + 1) = 1
      ∧ (1 : K) / 2 ^ (n - n + 1) = 1 / 2
      ∧ (Finset.range (n + 1)).inf' Finset.nonempty_range_succ
            (fun k => (d k).CurrentBandwidthInBytesPerSecond)
          ≤ e.CurrentBandwidthInBytesPerSecond
      ∧ e.CurrentBandwidthInBytesPerSecond
          ≤ (Finset.range (n + 1)).sup' Finset.nonempty_range_succ
              (fun k => (d k).CurrentBandwidthInBytesPerSecond) := by
  obtain ⟨S0, rest, rfl⟩ : ∃ S0 rest, stream = S0 :: rest := by
    cases stream with
    | nil => simp at hlen
    | cons S0 rest => exact ⟨S0, rest, rfl⟩
  have hrest : rest.length = n := by simpa using hlen
  have h0 : S0.Report.BucketStats.get? B = some (d 0) := hB 0 S0 (by simp)
  obtain ⟨e, he, hcur⟩ := get?_receiveLoop_running B d rest 0 S0.Report.BucketStats (d 0)
    (by omega)
    (fun k S hk => by
      have h := hB (k + 1) S (by simpa using hk)
      rw [h]
      congr 2
      omega)
    h0 rfl
  rw [Nat.zero_add, hrest] at hcur
  have hbounds := runningCurrent_bounds (fun k => (d k).CurrentBandwidthInBytesPerSecond)
    ((Finset.range (n + 1)).inf' Finset.nonempty_range_succ
      (fun k => (d k).CurrentBandwidthInBytesPerSecond))
    ((Finset.range (n + 1)).sup' Finset.nonempty_range_succ
      (fun k => (d k).CurrentBandwidthInBytesPerSecond)) n
    (fun k hk =>
      ⟨Finset.inf'_le _ (Finset.mem_range.2 (by omega)),
       Finset.le_sup' (fun k => (d k).CurrentBandwidthInBytesPerSecond)
        (Finset.mem_range.2 (by omega))⟩)
  have hweights := runningCurrent_closed_form (fun _ => (1 : K)) n
  rw [runningCurrent_const_one] at hweights
  refine ⟨_, e, fetch_of_stream newAdminClient server buckets client hclient, ?_, ?_,
    hweights.symm, ?_, ?_, ?_⟩
  · rw [hstream, receiveLoop_zero_cons]
    exact he
  · rw [hcur, runningCurrent_closed_form]
  · rw [Nat.sub_self]
    norm_num
  · rw [hcur]
    exact hbounds.1
  · rw [hcur]
    exact hbounds.2

theorem fetch_current_is_geometric_sum_witness :
    (2 : Nat) ≤ 9
      ∧ streaming [exampleS0, exampleS1, exampleS2] "play/"
        = .ok ⟨fun _ => [exampleS0, exampleS1, exampleS2]⟩
      ∧ (fun _ : List String => [exampleS0, exampleS1, exampleS2]) []
        = [exampleS0, exampleS1, exampleS2]
      ∧ [exampleS0, exampleS1, exampleS2].length = 2 + 1
      ∧ (∀ k S, [exampleS0, exampleS1, exampleS2][k]? = some S →
          S.Report.BucketStats.get? "a"
            = some ((fun k => match k with
                | 0 => (⟨100, 5 / 2⟩ : Details ℚ)
                | 1 => ⟨300, 3 / 2⟩
                | _ => ⟨100, 4⟩) k))
      ∧ ∃ m e, fetchInitialBandwidthData (streaming [exampleS0, exampleS1, exampleS2])
            "play/" [] = .returned m
          ∧ m.get? "a" = some e
          ∧ e.CurrentBandwidthInBytesPerSecond = 3 := by
  have hB : ∀ k S, [exampleS0, exampleS1, exampleS2][k]? = some S →
      S.Report.BucketStats.get? "a"
        = some ((fun k => match k with
            | 0 => (⟨100, 5 / 2⟩ : Details ℚ)
            | 1 => ⟨300, 3 / 2⟩
            | _ => ⟨100, 4⟩) k) := by
    intro k S hk
    match k, hk with
    | 0, hk => cases hk; rfl
    | 1, hk => cases hk; rfl
    | 2, hk => cases hk; rfl
    | k + 3, hk => simp at hk
  obtain ⟨m, e, hm, hget, hcur, _⟩ :=
    fetch_current_is_geometric_sum (streaming [exampleS0, exampleS1, exampleS2]) "play/" []
      ⟨fun _ => [exampleS0, exampleS1, exampleS2]⟩ [exampleS0, exampleS1, exampleS2] "a"
      (fun k => match k with
        | 0 => (⟨100, 5 / 2⟩ : Details ℚ)
        | 1 => ⟨300, 3 / 2⟩
        | _ => ⟨100, 4⟩) 2 (by decide) rfl rfl rfl hB
  refine ⟨by decide, rfl, rfl, rfl, hB, m, e, hm, hget, ?_⟩
  rw [hcur]
  have hIcc : Finset.Icc 1 2 = {1, 2} := by decide
  rw [hIcc, Finset.sum_pair (by decide)]
  norm_num

end Weights

end Bandwidth
